import Mathlib

set_option maxRecDepth 10000

/-!
Verification of the intentjs-framework core: a shallow embedding of the
intent-resolution pipeline (`packages/core/src/nlu/index.ts`), the input
normalizer (`utils/inputNormalizer.ts`), the prompt builder
(`prompt/templates.ts`), the deterministic mock LLM provider
(`llm/providers/mock.ts`) and the intent router (`router/index.ts`),
together with theorems about the testable properties of the spec.

Modelling conventions:
* JS strings are Lean `String`s; character-level work happens on `List Char`.
* JS numbers that carry confidences/thresholds are `Rat` (every comparison in
  the source is far from any floating-point rounding boundary).
* The LLM wire format is represented at the JSON level: a provider response
  carries either a parsed intent object (`LLMContent.parsed`) or a marker for
  text that `JSON.parse` rejects (`LLMContent.invalid`), so that
  `JSON.stringify` in the mock composed with `JSON.parse` in the pipeline is
  the identity it is in the source.
* A prompt is represented by its list of lines.  The source builds a single
  newline-joined string; since the mock's regular expressions never contain a
  newline and `.` does not match newline, a regex match always lies within a
  single line, so matching factors through the line list.
* `Date.now()` is modelled by an ambient clock `Nat → Nat` applied to a tick
  counter threaded through the loop; token-usage metrics of the mock are not
  modelled (no claim mentions them).
-/

namespace IntentJS

/-! ### Character and string helpers (ASCII case-insensitive matching) -/

/-- Lower-case code point of an ASCII character (identity elsewhere),
mirroring the `i` flag of the JS regexes on the ASCII text they are used on. -/
def lowNat (c : Char) : Nat :=
  let n := c.toNat
  if 65 ≤ n ∧ n ≤ 90 then n + 32 else n

def charEqCI (a b : Char) : Bool := lowNat a == lowNat b

def eqCI : List Char → List Char → Bool
  | [], [] => true
  | a :: as, b :: bs => charEqCI a b && eqCI as bs
  | _, _ => false

def startsWithCI : List Char → List Char → Bool
  | [], _ => true
  | _ :: _, [] => false
  | p :: ps, c :: cs => charEqCI p c && startsWithCI ps cs

/-- Index of the first case-insensitive occurrence of `pat` in `s`. -/
def findIdxCI (pat : List Char) : List Char → Option Nat
  | [] => if startsWithCI pat [] then some 0 else none
  | c :: cs =>
    if startsWithCI pat (c :: cs) then some 0
    else (findIdxCI pat cs).map (· + 1)

/-- Ordered multi-segment search: `segsMatch [s1, …, sn] line` holds iff the
literal segments occur in `line` in order, i.e. the line matches the regex
`s1.*s2.*…*sn` (case-insensitively, within one line).  Taking the earliest
occurrence of each segment is complete for literal segments. -/
def segsMatch : List (List Char) → List Char → Bool
  | [], _ => true
  | p :: ps, s =>
    match findIdxCI p s with
    | none => false
    | some i => segsMatch ps (s.drop (i + p.length))

/-- JS `\s` on the inputs at hand. -/
def isWsChar (c : Char) : Bool :=
  c == ' ' || c == '\t' || c == '\n' || c == '\r' || c == '\x0b' || c == '\x0c'

/-- JS `\w`: `[A-Za-z0-9_]`. -/
def isWordChar (c : Char) : Bool := c.isAlpha || c.isDigit || c == '_'

/-- `String.prototype.trim`. -/
def trimWs (s : List Char) : List Char :=
  ((s.dropWhile isWsChar).reverse.dropWhile isWsChar).reverse

def collapseWsAux : Bool → List Char → List Char
  | _, [] => []
  | prevWs, c :: cs =>
    if isWsChar c then
      if prevWs then collapseWsAux true cs else ' ' :: collapseWsAux true cs
    else c :: collapseWsAux false cs

/-- `replace(/\s+/g, ' ')`. -/
def collapseWs (s : List Char) : List Char := collapseWsAux false s

/-- Scan for `mapWords`: `acc` is the reversed word run currently being read;
on leaving a run (or at the end) the run is emitted through `f`. -/
def mapWordsAux (f : List Char → List Char) : List Char → List Char → List Char
  | acc, [] => if acc = [] then [] else f acc.reverse
  | acc, c :: cs =>
    if isWordChar c then mapWordsAux f (c :: acc) cs
    else (if acc = [] then [] else f acc.reverse) ++ c :: mapWordsAux f [] cs

/-- Apply `f` to every maximal run of word characters (the only place a
`\btypo\b` match can sit in a string of word/non-word characters). -/
def mapWords (f : List Char → List Char) (s : List Char) : List Char :=
  mapWordsAux f [] s

/-! ### `utils/inputNormalizer.ts` -/

/-- Alternatives of `^(please|can you|could you|i want to|i would like to)\s+`,
in the order the regex tries them. -/
def politenessPhrases : List String :=
  ["please", "can you", "could you", "i want to", "i would like to"]

/-- The `actionMappings` table, in insertion order (first match wins, and the
match is anchored: `^pattern\s+`, replaced by `replacement ⌴`). -/
def actionMappings : List (String × String) :=
  [("show me", "show"), ("go to", "navigate to"), ("take me to", "navigate to"),
   ("open", "navigate to"), ("navigate", "navigate to"), ("bring up", "show"),
   ("display", "show"), ("find", "search for"), ("look for", "search for"),
   ("search", "search for"), ("filter by", "filter"), ("sort by", "sort"),
   ("order by", "sort")]

/-- The `typoCorrections` table, in insertion order; each is applied globally
to whole words (`\btypo\b`, case-insensitive). -/
def typoCorrections : List (String × String) :=
  [("dasboard", "dashboard"), ("dashbord", "dashboard"), ("setting", "settings"),
   ("setings", "settings"), ("report", "reports"), ("statistic", "statistics"),
   ("analytic", "analytics"), ("notifcation", "notification"),
   ("acount", "account"), ("proflie", "profile")]

/-- Strip the first matching leading phrase followed by whitespace (after
whitespace collapse, `\s+` is exactly one space). -/
def stripLeadingPhrase (phrases : List String) (s : List Char) : List Char :=
  match phrases.find? (fun p => startsWithCI (p.toList ++ [' ']) s) with
  | some p => s.drop (p.toList.length + 1)
  | none => s

/-- First matching anchored action mapping, applied once (`break` in source). -/
def applyActionMapping (s : List Char) : List Char :=
  match actionMappings.find? (fun m => startsWithCI (m.1.toList ++ [' ']) s) with
  | some m => m.2.toList ++ [' '] ++ s.drop (m.1.toList.length + 1)
  | none => s

def applyTypoCorrections (s : List Char) : List Char :=
  typoCorrections.foldl
    (fun acc tc => mapWords (fun w => if eqCI w tc.1.toList then tc.2.toList else w) acc)
    s

/-- `normalizeInput` from `utils/inputNormalizer.ts`: trim, collapse
whitespace, strip one leading politeness phrase, canonicalize one leading
action phrase, fix known typos word-wise. -/
def normalizeInput (input : String) : String :=
  if input = "" then ""
  else
    String.mk (applyTypoCorrections (applyActionMapping
      (stripLeadingPhrase politenessPhrases (collapseWs (trimWs input.toList)))))

/-- The alternatives of `/\b(password|credit card|social security|ssn|private key)\b/i`. -/
def sensitivePhrases : List String :=
  ["password", "credit card", "social security", "ssn", "private key"]

def boundaryBefore : Option Char → Bool
  | none => true
  | some c => !isWordChar c

def boundaryAfter : List Char → Bool
  | [] => true
  | c :: _ => !isWordChar c

/-- Occurrence of `phrase` with a word boundary on both sides, anywhere in the
string (the first and last characters of every sensitive phrase are word
characters, so `\b` means an adjacent non-word character or the string edge). -/
def wordOccursAux (phrase : List Char) : Option Char → List Char → Bool
  | prev, [] =>
    boundaryBefore prev && startsWithCI phrase [] && phrase == []
  | prev, c :: cs =>
    (boundaryBefore prev && startsWithCI phrase (c :: cs) &&
      boundaryAfter ((c :: cs).drop phrase.length))
    || wordOccursAux phrase (some c) cs

def wordOccursCI (phrase s : List Char) : Bool := wordOccursAux phrase none s

/-- `hasSensitiveContent` from `utils/inputNormalizer.ts`. -/
def hasSensitiveContent (input : String) : Bool :=
  sensitivePhrases.any (fun p => wordOccursCI p.toList input.toList)

/-! ### Data model (`packages/types`, `nlu/types.ts`, `llm/types.ts`) -/

/-- The raw object produced by `JSON.parse` on a model response, as used by
`parseIntent` (statically typed `Intent` in the source: `action` required,
the rest optional; all param values occurring in this repository are strings).
`action = none` models an absent field, `action = some ""` the falsy empty
string — both fail the `!intent.action` check. -/
structure JsIntent where
  action : Option String := none
  target : Option String := none
  params : Option (List (String × String)) := none
  confidence : Option Rat := none
deriving DecidableEq, Repr

/-- A provider's `content` string, at the JSON level: either text that
`JSON.parse` rejects (with the raw text and the parse error's message), or a
successfully parsed intent object. -/
inductive LLMContent where
  | invalid (raw : String) (errMsg : String)
  | parsed (intent : JsIntent)
deriving DecidableEq, Repr

/-- `LLMResponse` (usage metrics omitted — no claim mentions them). -/
structure LLMResponse where
  content : LLMContent
  error : Option String := none
deriving DecidableEq, Repr

/-- JS truthiness of the `error` field (`if (llmResponse.error)`):
absent and the empty string are falsy. -/
def errTruthy : Option String → Bool
  | none => false
  | some s => s != ""

/-- JS truthiness of the decoded `action` field (`if (!intent.action)`). -/
def actionTruthy : Option String → Bool
  | none => false
  | some s => s != ""

structure PromptContext where
  page : Option String := none
  availableActions : Option (List String) := none
  availableTargets : Option (List String) := none
  appState : Option (List (String × String)) := none
deriving DecidableEq, Repr

structure PromptHistoryItem where
  input : String
  intent : JsIntent
  timestamp : Nat
deriving DecidableEq, Repr

/-- `PromptTemplateOptions` with the defaults the destructuring in
`createDefaultIntentPrompt` supplies.  `maxLength` is declared but unused in
the source. -/
structure PromptTemplateOptions where
  maxLength : Option Nat := none
  includeContext : Bool := true
  includeHistory : Bool := false
  historyLimit : Nat := 3
deriving DecidableEq, Repr

/-! ### JSON serialization helpers (used only inside the prompt text) -/

def jsonEscape (s : String) : String :=
  String.mk (s.toList.foldr
    (fun c acc =>
      match c with
      | '"' => '\\' :: '"' :: acc
      | '\\' => '\\' :: '\\' :: acc
      | '\n' => '\\' :: 'n' :: acc
      | c => c :: acc) [])

def jsonStrLit (s : String) : String := "\"" ++ jsonEscape s ++ "\""

def fracDigits : Nat → Nat → Nat → List Char
  | _, _, 0 => []
  | r, d, fuel + 1 =>
    if r = 0 then []
    else
      let r10 := r * 10
      Char.ofNat (48 + r10 / d) :: fracDigits (r10 % d) d fuel

/-- Decimal rendering of a rational, as `JSON.stringify` prints the JS numbers
occurring in this repository (all have terminating expansions). -/
def ratToDecimal (q : Rat) : String :=
  let sign := if q.num < 0 then "-" else ""
  let n := q.num.natAbs
  let ip := n / q.den
  let r := n % q.den
  if r = 0 then sign ++ toString ip
  else sign ++ toString ip ++ "." ++ String.mk (fracDigits r q.den 20)

def paramsStringify (ps : List (String × String)) : String :=
  "\x7b" ++ String.intercalate ","
    (ps.map (fun kv => jsonStrLit kv.1 ++ ":" ++ jsonStrLit kv.2)) ++ "\x7d"

/-- `JSON.stringify` of a decoded intent object (field insertion order:
action, target, params, confidence; absent fields are skipped). -/
def jsIntentStringify (i : JsIntent) : String :=
  let fields :=
    (match i.action with
     | some a => ["\"action\":" ++ jsonStrLit a]
     | none => []) ++
    (match i.target with
     | some t => ["\"target\":" ++ jsonStrLit t]
     | none => []) ++
    (match i.params with
     | some ps => ["\"params\":" ++ paramsStringify ps]
     | none => []) ++
    (match i.confidence with
     | some c => ["\"confidence\":" ++ ratToDecimal c]
     | none => [])
  "\x7b" ++ String.intercalate "," fields ++ "\x7d"

/-! ### `prompt/templates.ts` -/

/-- Concatenation of two strings represented by their line lists: the last
line of the first merges with the first line of the second (no newline is
inserted by `+=`). -/
def catLines : List String → List String → List String
  | [], ys => ys
  | [x], [] => [x]
  | [x], y :: ys => (x ++ y) :: ys
  | x :: xs, ys => x :: catLines xs ys

/-- The fixed leading template of `createDefaultIntentPrompt`, with the user
input interpolated (lines of the TS template literal, which starts and ends
with a newline). -/
def basePromptLines (input : String) : List String :=
  ["",
   "You are an intent parser for a JavaScript application. Your task is to convert natural language inputs from users ",
   "into structured intent objects. The intent should be returned as valid JSON with the following structure:",
   "",
   "\x7b",
   "  \"action\": string,               // The primary action the user wants to perform",
   "  \"target\": string,               // Optional: What the action applies to",
   "  \"params\": object,               // Optional: Any parameters needed",
   "  \"confidence\": number            // Optional: Confidence score between 0 and 1",
   "\x7d",
   "",
   "User input: \"" ++ input ++ "\"",
   ""]

/-- Lines of `JSON.stringify(appState, null, 2)` for the string-valued
records occurring in this repository. -/
def appStateLines : List (String × String) → List String
  | [] => ["\x7b\x7d"]
  | ps =>
    let n := ps.length
    ["\x7b"] ++
    (ps.enum.map (fun pz =>
      "  " ++ jsonStrLit pz.2.1 ++ ": " ++ jsonStrLit pz.2.2 ++
      (if pz.1 + 1 < n then "," else ""))) ++
    ["\x7d"]

/-- The `Current context:` chunk.  Each conditional interpolation sits alone on
its line, so an absent field leaves an empty line (`''`), exactly as in the
template literal; an empty `availableActions`/`availableTargets` array and an
empty `appState` object are truthy in JS and therefore rendered. -/
def contextLines (ctx : PromptContext) : List String :=
  let pageStr :=
    match ctx.page with
    | some p => if p = "" then "unknown" else p
    | none => "unknown"
  let actLines :=
    match ctx.availableActions with
    | some as => ["- Available actions: " ++ String.intercalate ", " as]
    | none => [""]
  let tgtLines :=
    match ctx.availableTargets with
    | some ts => ["- Available targets: " ++ String.intercalate ", " ts]
    | none => [""]
  let appLines :=
    match ctx.appState with
    | some st =>
      match appStateLines st with
      | l0 :: rest => ("- App state: " ++ l0) :: rest
      | [] => [""]
    | none => [""]
  [""] ++ ["Current context:", "- Current page: " ++ pageStr] ++
    actLines ++ tgtLines ++ appLines ++ [""]

/-- The `Recent history:` chunk (`history.slice(-historyLimit)`; JS
`slice(-0)` is `slice(0)`, i.e. the whole array). -/
def historyLines (items : List PromptHistoryItem) (historyLimit : Nat) : List String :=
  let limited :=
    if historyLimit = 0 then items else items.drop (items.length - historyLimit)
  [""] ++ ["Recent history:"] ++
    (limited.map (fun it =>
      "- Input: \"" ++ it.input ++ "\" → Intent: " ++ jsIntentStringify it.intent)) ++
    [""]

/-- The closing instruction chunk. -/
def closingPromptLines : List String :=
  ["",
   "Return ONLY the JSON intent object and nothing else. Do not include explanations or additional text.",
   ""]

/-- `createDefaultIntentPrompt` from `prompt/templates.ts`, as a line list. -/
def createDefaultIntentPrompt (input : String) (context : Option PromptContext)
    (history : Option (List PromptHistoryItem)) (options : PromptTemplateOptions) :
    List String :=
  let base := basePromptLines input
  let withCtx :=
    match context with
    | some ctx => if options.includeContext then catLines base (contextLines ctx) else base
    | none => base
  let withHist :=
    match history with
    | some items =>
      if options.includeHistory ∧ items ≠ [] then
        catLines withCtx (historyLines items options.historyLimit)
      else withCtx
    | none => withCtx
  catLines withHist closingPromptLines

/-! ### `llm/providers/mock.ts` -/

/-- A provider: the prompt (as its line list) to a response. -/
abbrev Provider := List String → LLMResponse

namespace MockProvider

/-- The `patternResponses` table: each regex is an alternation of
`.*`-separated literal-segment sequences, paired with the canned intent its
`JSON.stringify`ed response parses back to.  Order matters (first match wins). -/
def patterns : List (List (List String) × JsIntent) :=
  [([["show", "sales", "last month"]],
    { action := some "filter", target := some "sales",
      params := some [("dateRange", "last_month")], confidence := some (mkRat 95 100) }),
   ([["navigate"], ["go"], ["open"], ["show", "dashboard"]],
    { action := some "navigate", target := some "dashboard", confidence := some (mkRat 95 100) }),
   ([["navigate"], ["go"], ["open"], ["show", "settings"]],
    { action := some "navigate", target := some "settings", confidence := some (mkRat 95 100) }),
   ([["navigate"], ["go"], ["open"], ["show", "profile"]],
    { action := some "navigate", target := some "profile", confidence := some (mkRat 95 100) }),
   ([["export", "pdf"]],
    { action := some "export", target := some "current",
      params := some [("format", "pdf")], confidence := some (mkRat 9 10) }),
   ([["export", "csv"]],
    { action := some "export", target := some "current",
      params := some [("format", "csv")], confidence := some (mkRat 9 10) }),
   ([["filter", "region", "europe"]],
    { action := some "filter", target := some "data",
      params := some [("region", "europe")], confidence := some (mkRat 92 100) }),
   ([["sort", "by", "date"]],
    { action := some "sort", target := some "data",
      params := some [("field", "date")], confidence := some (mkRat 88 100) }),
   ([["hello"], ["hi"], ["hey"]],
    { action := some "greet", confidence := some (mkRat 8 10) })]

/-- `pattern.test(input)` where `input` is the whole prompt: some line matches
some alternative of the pattern. -/
def patternMatches (alts : List (List String)) (promptLines : List String) : Bool :=
  promptLines.any (fun line =>
    alts.any (fun segs => segsMatch (segs.map String.toList) line.toList))

/-- The fallback intent for unrecognized prompts (`rawInput` receives the whole
prompt, since the mock conflates the prompt with the user input). -/
def fallbackIntent (promptLines : List String) : JsIntent :=
  { action := some "unknown",
    params := some [("rawInput", String.intercalate "\n" promptLines)],
    confidence := some (mkRat 4 10) }

/-- `MockProvider.generate`: first matching pattern's canned response, else the
generic low-confidence fallback; never uses the error channel. -/
def generate : Provider := fun promptLines =>
  match patterns.find? (fun p => patternMatches p.1 promptLines) with
  | some p => { content := .parsed p.2 }
  | none => { content := .parsed (fallbackIntent promptLines) }

end MockProvider

/-! ### `nlu/index.ts` — the resolution loop -/

/-- `NLUOptions` after the constructor merge and the destructuring defaults in
`parseIntent` (`retryOnFailure = true`, `maxRetries = 1`, `minConfidence =
0.6`, `keepHistory = true`, `historyLimit = 10`, `debug = false`).  The
`llmProvider`/`llmOptions` selection is external to the loop: the provider is
passed in explicitly. -/
structure NLUOptions where
  retryOnFailure : Bool := true
  maxRetries : Nat := 1
  minConfidence : Rat := mkRat 6 10
  keepHistory : Bool := true
  historyLimit : Nat := 10
  debug : Bool := false
  defaultContext : Option PromptContext := none
  promptOptions : PromptTemplateOptions := {}

/-- `ParseResult` from `nlu/types.ts`; absent optional fields are `none`. -/
structure ParseResult where
  success : Bool
  intent : Option JsIntent := none
  error : Option String := none
  rawLLMResponse : Option LLMContent := none
  processingTime : Option Nat := none
  retries : Option Nat := none
  correctionSuggestion : Option String := none
deriving DecidableEq, Repr

/-- Result of one `parseIntent` call, instrumented with the final history, the
number of `generate` invocations and the final clock tick. -/
structure ParseOutcome where
  result : ParseResult
  history : List PromptHistoryItem
  calls : Nat
  tick : Nat
deriving DecidableEq, Repr

def mergeOpt {α : Type} : Option α → Option α → Option α
  | some a, _ => some a
  | none, d => d

/-- `{...this.options.defaultContext, ...context}` — shallow merge, call-site
field wins when present; the result is always an object (hence always truthy
in the prompt builder's `includeContext && context` test). -/
def mergeContext (d c : Option PromptContext) : PromptContext :=
  let dd := d.getD {}
  let cc := c.getD {}
  { page := mergeOpt cc.page dd.page,
    availableActions := mergeOpt cc.availableActions dd.availableActions,
    availableTargets := mergeOpt cc.availableTargets dd.availableTargets,
    appState := mergeOpt cc.appState dd.appState }

/-- `Math.max(0, Math.min(1, c))`. -/
def clampRat (c : Rat) : Rat := max 0 (min 1 c)

/-- The in-place clamp `intent.confidence = Math.max(0, Math.min(1, intent.confidence))`. -/
def clampIntent (i : JsIntent) : JsIntent :=
  { i with confidence := i.confidence.map clampRat }

/-- `addToHistory`: push, then trim to the last `historyLimit` entries — but
only when `historyLimit` is truthy (a limit of `0` disables trimming). -/
def addToHistory (historyLimit : Nat) (history : List PromptHistoryItem)
    (input : String) (intent : JsIntent) (now : Nat) : List PromptHistoryItem :=
  let h := history ++ [{ input := input, intent := intent, timestamp := now }]
  if historyLimit ≠ 0 ∧ h.length > historyLimit then
    h.drop (h.length - historyLimit)
  else h

/-- The prompt `parseIntent` builds on an attempt with history `h` (identical
on every attempt of one call, since history only changes on the final
successful return). -/
def firstPromptLines (opts : NLUOptions) (input : String)
    (context : Option PromptContext) (h : List PromptHistoryItem) : List String :=
  createDefaultIntentPrompt (normalizeInput input)
    (some (mergeContext opts.defaultContext context))
    (if opts.keepHistory then some h else none)
    opts.promptOptions

/-- The `while (attempts <= maxRetries)` loop of `parseIntent`.  `fuel` is the
number of loop iterations still permitted (`maxRetries + 1 - attempts0`, which
the recursion maintains); `attempts0` is the value of `attempts` before the
`attempts++` of the iteration; `last` is `lastResult`; falling out of the loop
returns `lastResult!` (the non-null assertion is modelled by a sentinel that is
unreachable from `parseIntent`'s initial state). -/
def parseLoop (opts : NLUOptions) (provider : Provider) (clock : Nat → Nat)
    (input : String) (context : Option PromptContext) (startTime : Nat) :
    Nat → Nat → Option ParseResult → List PromptHistoryItem → Nat → Nat → ParseOutcome
  | 0, _, last, history, calls, tick =>
    { result := last.getD { success := false, error := some "lastResult was null" },
      history := history, calls := calls, tick := tick }
  | fuel + 1, attempts0, last, history, calls, tick =>
    let attempts := attempts0 + 1
    let normalizedInput := normalizeInput input
    if hasSensitiveContent normalizedInput then
      { result := { success := false,
                    error := some "Input contains sensitive content",
                    processingTime := some (clock tick - startTime) },
        history := history, calls := calls, tick := tick + 1 }
    else
      let promptLines := createDefaultIntentPrompt normalizedInput
        (some (mergeContext opts.defaultContext context))
        (if opts.keepHistory then some history else none)
        opts.promptOptions
      let llmResponse := provider promptLines
      let calls1 := calls + 1
      if errTruthy llmResponse.error then
        { result := { success := false,
                      error := some ("LLM error: " ++ llmResponse.error.getD ""),
                      rawLLMResponse := some llmResponse.content,
                      processingTime := some (clock tick - startTime),
                      retries := some (attempts - 1) },
          history := history, calls := calls1, tick := tick + 1 }
      else
        match llmResponse.content with
        | .invalid _ errMsg =>
          parseLoop opts provider clock input context startTime fuel attempts
            (some { success := false,
                    error := some ("Failed to parse intent: " ++ errMsg),
                    rawLLMResponse := some llmResponse.content,
                    processingTime := some (clock tick - startTime),
                    retries := some (attempts - 1) })
            history calls1 (tick + 1)
        | .parsed rawIntent =>
          if actionTruthy rawIntent.action then
            let intent := clampIntent rawIntent
            let successOutcome : ParseOutcome :=
              let history1 :=
                if opts.keepHistory then
                  addToHistory opts.historyLimit history normalizedInput intent (clock tick)
                else history
              let tick1 := if opts.keepHistory then tick + 1 else tick
              { result := { success := true,
                            intent := some intent,
                            rawLLMResponse :=
                              if opts.debug then some llmResponse.content else none,
                            processingTime := some (clock tick1 - startTime),
                            retries := some (attempts - 1) },
                history := history1, calls := calls1, tick := tick1 + 1 }
            match intent.confidence with
            | some c =>
              if c < opts.minConfidence then
                if attempts ≤ opts.maxRetries ∧ opts.retryOnFailure then
                  parseLoop opts provider clock input context startTime fuel attempts
                    last history calls1 tick
                else
                  { result := { success := false,
                                error := some ("Low confidence intent (" ++ ratToDecimal c ++ ")"),
                                rawLLMResponse := some llmResponse.content,
                                processingTime := some (clock tick - startTime),
                                retries := some (attempts - 1),
                                correctionSuggestion :=
                                  some "Can you rephrase or clarify your command?" },
                    history := history, calls := calls1, tick := tick + 1 }
              else successOutcome
            | none => successOutcome
          else
            parseLoop opts provider clock input context startTime fuel attempts
              (some { success := false,
                      error := some "Failed to parse intent: Missing required \"action\" field in intent",
                      rawLLMResponse := some llmResponse.content,
                      processingTime := some (clock tick - startTime),
                      retries := some (attempts - 1) })
              history calls1 (tick + 1)

/-- `parseIntent` from `nlu/index.ts`, instrumented: returns the `ParseResult`,
the final history of the `NaturalLanguageUnderstanding` instance, and the
number of `this.llmProvider.generate` invocations. -/
def parseIntent (opts : NLUOptions) (provider : Provider) (clock : Nat → Nat)
    (input : String) (context : Option PromptContext)
    (history0 : List PromptHistoryItem) : ParseOutcome :=
  parseLoop opts provider clock input context (clock 0)
    (opts.maxRetries + 1) 0 none history0 0 1

/-! ### `router/index.ts` -/

/-- `Intent` from `packages/types`: `action` is required. -/
structure Intent where
  action : String
  target : Option String := none
  params : Option (List (String × String)) := none
  confidence : Option Rat := none
deriving DecidableEq, Repr

/-- `IntentResponse` from `packages/types` (`data` values in this repository
are not inspected by the router; modelled as strings). -/
structure IntentResponse where
  success : Bool
  message : Option String := none
  data : Option String := none
deriving DecidableEq, Repr

/-- A middleware returns a (possibly transformed) intent or the rejection
sentinel `null`. -/
abbrev Middleware := Intent → Option Intent

abbrev ExecutorContext := List (String × String)

/-- An executor either returns data or throws (modelled by `Except`). -/
abbrev Executor := Intent → Option ExecutorContext → Except String String

/-- The `actionExecutors` registry of `intentjs-actions`. -/
abbrev Registry := String → Option Executor

structure RouterOptions where
  defaultErrorMessage : Option String := none
  fallbackAction : Option String := none
  middleware : Option (List Middleware) := none

/-- `{...defaultOptions, ...options}`. -/
def mergeRouterOptions (o : RouterOptions) : RouterOptions :=
  { defaultErrorMessage := mergeOpt o.defaultErrorMessage (some "Action execution failed"),
    fallbackAction := o.fallbackAction,
    middleware := o.middleware }

/-- The middleware `for` loop: runs each middleware on the current intent
until one rejects; also counts how many middleware functions were invoked. -/
def runMiddleware : List Middleware → Intent → Option Intent × Nat
  | [], i => (some i, 0)
  | f :: fs, i =>
    match f i with
    | none => (none, 1)
    | some i2 =>
      let r := runMiddleware fs i2
      (r.1, r.2 + 1)

/-- Result of `routeIntent`, instrumented with the number of middleware
invocations and whether any executor (including a fallback executor) ran. -/
structure RouteOutcome where
  response : IntentResponse
  middlewareCalls : Nat
  handlerCalled : Bool
deriving Repr

/-- `routeIntent` from `router/index.ts`.  Note two details of the source:
the rejection message is `"Intent rejected by middleware"`, the missing-handler
message is `"Unknown action: <action>"` (capital U), and only the main
executor call sits inside the inner `try` — a throwing fallback executor is
caught by the outer handler as `"Router error: …"`. -/
def routeIntent (registry : Registry) (intent : Intent)
    (context : Option ExecutorContext) (options : RouterOptions) : RouteOutcome :=
  let merged := mergeRouterOptions options
  let mwRes : Option Intent × Nat :=
    match merged.middleware with
    | some mws => if mws.length > 0 then runMiddleware mws intent else (some intent, 0)
    | none => (some intent, 0)
  match mwRes.1 with
  | none =>
    { response := { success := false, message := some "Intent rejected by middleware" },
      middlewareCalls := mwRes.2, handlerCalled := false }
  | some intentF =>
    let unknownOutcome : RouteOutcome :=
      { response := { success := false,
                      message := some ("Unknown action: " ++ intentF.action) },
        middlewareCalls := mwRes.2, handlerCalled := false }
    match registry intentF.action with
    | some executor =>
      match executor intentF context with
      | .ok data =>
        { response := { success := true, data := some data },
          middlewareCalls := mwRes.2, handlerCalled := true }
      | .error msg =>
        { response := { success := false,
                        message := if msg = "" then merged.defaultErrorMessage else some msg },
          middlewareCalls := mwRes.2, handlerCalled := true }
    | none =>
      match merged.fallbackAction with
      | some fb =>
        match registry fb with
        | some fallbackExecutor =>
          match fallbackExecutor intentF context with
          | .ok data =>
            { response := { success := true, data := some data,
                            message := some ("Executed fallback action: " ++ fb) },
              middlewareCalls := mwRes.2, handlerCalled := true }
          | .error msg =>
            { response := { success := false, message := some ("Router error: " ++ msg) },
              middlewareCalls := mwRes.2, handlerCalled := true }
        | none => unknownOutcome
      | none => unknownOutcome

/-! ### Reference-semantics model for `getHistory`

`getHistory` returns `[...this.history]`.  To state what the spread copy means
observationally, JS arrays are modelled as heap slots holding lists of item
references (a shallow copy allocates a new slot with the same item
references); history items themselves are immutable values here. -/

structure ArrayHeap where
  arrays : List (List Nat)
  items : List PromptHistoryItem
deriving Repr

def readArray (h : ArrayHeap) (r : Nat) : List Nat := h.arrays.getD r []

/-- In-place mutation of the array at reference `r` (covers push/splice/sort —
any replacement of the contents). -/
def writeArray (h : ArrayHeap) (r : Nat) (contents : List Nat) : ArrayHeap :=
  { h with arrays := h.arrays.set r contents }

def allocArray (h : ArrayHeap) (contents : List Nat) : Nat × ArrayHeap :=
  (h.arrays.length, { h with arrays := h.arrays ++ [contents] })

/-- An `NaturalLanguageUnderstanding` instance: `this.history` is a reference
into the heap. -/
structure NLUInstance where
  heap : ArrayHeap
  historyRef : Nat
deriving Repr

/-- `getHistory(): return [...this.history]` — allocate a fresh array whose
contents are the current item references. -/
def getHistory (st : NLUInstance) : Nat × NLUInstance :=
  let a := allocArray st.heap (readArray st.heap st.historyRef)
  (a.1, { st with heap := a.2 })

/-! ### Concrete fixtures used by witnesses and counterexamples -/

/-- A provider whose backend persistently fails (HTTP error path of the live
providers: empty content, error message set). -/
def errProviderW : Provider := fun _ =>
  { content := .invalid "" "Unexpected end of JSON input",
    error := some "Service unavailable" }

/-- A provider returning a fixed well-formed intent of confidence 0.7. -/
def okProviderW : Provider := fun _ =>
  { content := .parsed { action := some "navigate", confidence := some (mkRat 7 10) } }

/-- A provider returning a fixed well-formed intent whose raw confidence 1.5
lies outside [0,1]. -/
def hotProviderW : Provider := fun _ =>
  { content := .parsed { action := some "navigate", confidence := some (mkRat 3 2) } }

def greetIntentW : JsIntent := { action := some "greet", confidence := some (mkRat 8 10) }

def navIntentW : Intent := { action := "navigate", target := some "settings" }

def passMiddlewareW : Middleware := fun i => some i

def rejectMiddlewareW : Middleware := fun _ => none

def emptyRegistryW : Registry := fun _ => none

def getHistoryInstW : NLUInstance :=
  { heap := { arrays := [[0]],
              items := [{ input := "hello", intent := greetIntentW, timestamp := 0 }] },
    historyRef := 0 }

/-- The intent the mock decodes for `input` under default options and any
starting history: the prompt does not depend on the history (default
`includeHistory` is `false`), so neither does the response. -/
def mockTemplateIntent (input : String) : JsIntent :=
  match (MockProvider.generate (firstPromptLines {} input none [])).content with
  | .parsed i => i
  | .invalid _ _ => {}

end IntentJS

namespace IntentJS

/-! ## Supporting lemmas -/

theorem clampRat_nonneg (c : Rat) : 0 ≤ clampRat c := le_max_left 0 _

theorem clampRat_le_one (c : Rat) : clampRat c ≤ 1 :=
  max_le zero_le_one (min_le_left 1 c)

/-- The loop performs at most one `generate` call per remaining iteration. -/
theorem parseLoop_calls_le (opts : NLUOptions) (provider : Provider)
    (clock : Nat → Nat) (input : String) (context : Option PromptContext)
    (startTime : Nat) :
    ∀ (fuel attempts0 : Nat) (last : Option ParseResult)
      (history : List PromptHistoryItem) (calls tick : Nat),
      (parseLoop opts provider clock input context startTime
        fuel attempts0 last history calls tick).calls ≤ calls + fuel := by
  intro fuel
  induction fuel with
  | zero =>
    intro attempts0 last history calls tick
    simp [parseLoop]
  | succ n ih =>
    intro attempts0 last history calls tick
    simp only [parseLoop]
    repeat' split
    all_goals
      first
        | exact Nat.le_trans (ih ..) (by omega)
        | (simp only [ParseOutcome.calls]
           omega)

/-! ## Claims -/

/-- Claim C3: for every input and every configured `maxRetries = k`, a single
`parseIntent` call invokes the language-model capability's `generate` at most
`k + 1` times before returning. -/
theorem parseIntent_calls_le_budget (opts : NLUOptions) (provider : Provider)
    (clock : Nat → Nat) (input : String) (context : Option PromptContext)
    (history0 : List PromptHistoryItem) :
    (parseIntent opts provider clock input context history0).calls ≤
      opts.maxRetries + 1 := by
  have h := parseLoop_calls_le opts provider clock input context (clock 0)
    (opts.maxRetries + 1) 0 none history0 0 1
  simpa [parseIntent] using h

/-- Claim C4: an input whose normalized form matches a sensitive-content
pattern makes `parseIntent` return the `SensitiveContent` failure immediately:
zero `generate` invocations, no retry, history untouched. -/
theorem sensitive_input_rejected_preflight (opts : NLUOptions) (provider : Provider)
    (clock : Nat → Nat) (input : String) (context : Option PromptContext)
    (history0 : List PromptHistoryItem)
    (hsens : hasSensitiveContent (normalizeInput input) = true) :
    (parseIntent opts provider clock input context history0).calls = 0 ∧
    (parseIntent opts provider clock input context history0).result.success = false ∧
    (parseIntent opts provider clock input context history0).result.error =
      some "Input contains sensitive content" ∧
    (parseIntent opts provider clock input context history0).history = history0 := by
  simp [parseIntent, parseLoop, hsens]

/-- Witness for C4 at the concrete input `"what is my password"`. -/
theorem sensitive_input_rejected_preflight_witness :
    (parseIntent {} MockProvider.generate (fun n => n) "what is my password" none []).calls = 0 ∧
    (parseIntent {} MockProvider.generate (fun n => n) "what is my password" none []).result.success = false ∧
    (parseIntent {} MockProvider.generate (fun n => n) "what is my password" none []).result.error =
      some "Input contains sensitive content" ∧
    (parseIntent {} MockProvider.generate (fun n => n) "what is my password" none []).history = [] :=
  sensitive_input_rejected_preflight {} MockProvider.generate (fun n => n)
    "what is my password" none [] (by decide)

/-- Counterexample to claim C1: with the default budget (`maxRetries = 1`) and
a provider whose every response carries an error, `parseIntent` calls
`generate` exactly once — the `break` after a model error skips the retry the
claim asserts — and returns the model error with `retries = 0`. -/
theorem modelError_not_retried_cex :
    ({} : NLUOptions).maxRetries = 1 ∧
    (parseIntent {} errProviderW (fun n => n) "turn on dark mode" none []).calls = 1 ∧
    (parseIntent {} errProviderW (fun n => n) "turn on dark mode" none []).result.success = false ∧
    (parseIntent {} errProviderW (fun n => n) "turn on dark mode" none []).result.error =
      some "LLM error: Service unavailable" ∧
    (parseIntent {} errProviderW (fun n => n) "turn on dark mode" none []).result.retries = some 0 := by
  decide

/-- Claim C1 as amended: a model-capability error is not retried.  For every
options record, provider, input (not sensitive) and starting history, if the
response to the first prompt has a truthy `error` field then `parseIntent`
stops after exactly one `generate` call and returns the `ModelError` failure
(carrying the raw error and content) with `retries = 0`, regardless of the
remaining retry budget; only decode failures are retried. -/
theorem modelError_returned_without_retry (opts : NLUOptions) (provider : Provider)
    (clock : Nat → Nat) (input : String) (context : Option PromptContext)
    (history0 : List PromptHistoryItem)
    (hsens : hasSensitiveContent (normalizeInput input) = false)
    (herr : errTruthy (provider (firstPromptLines opts input context history0)).error = true) :
    (parseIntent opts provider clock input context history0).calls = 1 ∧
    (parseIntent opts provider clock input context history0).result.success = false ∧
    (parseIntent opts provider clock input context history0).result.error =
      some ("LLM error: " ++
        (provider (firstPromptLines opts input context history0)).error.getD "") ∧
    (parseIntent opts provider clock input context history0).result.rawLLMResponse =
      some (provider (firstPromptLines opts input context history0)).content ∧
    (parseIntent opts provider clock input context history0).result.retries = some 0 ∧
    (parseIntent opts provider clock input context history0).history = history0 := by
  simp only [firstPromptLines] at herr
  simp [parseIntent, parseLoop, firstPromptLines, hsens, herr]

/-- Witness for the amended C1 at a concrete erroring provider. -/
theorem modelError_returned_without_retry_witness :
    (parseIntent {} errProviderW (fun n => n) "please dim the lights" none []).calls = 1 ∧
    (parseIntent {} errProviderW (fun n => n) "please dim the lights" none []).result.success = false ∧
    (parseIntent {} errProviderW (fun n => n) "please dim the lights" none []).result.error =
      some ("LLM error: " ++
        (errProviderW (firstPromptLines {} "please dim the lights" none [])).error.getD "") ∧
    (parseIntent {} errProviderW (fun n => n) "please dim the lights" none []).result.rawLLMResponse =
      some (errProviderW (firstPromptLines {} "please dim the lights" none [])).content ∧
    (parseIntent {} errProviderW (fun n => n) "please dim the lights" none []).result.retries = some 0 ∧
    (parseIntent {} errProviderW (fun n => n) "please dim the lights" none []).history = [] :=
  modelError_returned_without_retry {} errProviderW (fun n => n)
    "please dim the lights" none [] (by decide) (by decide)

/-- Claim C2, what the code actually does at the input `"asdkjasd"`: the mock
matches its patterns against the whole prompt, `/hello|hi|hey/i` finds the
substring `hi` inside the word `nothing` of the template's closing
instruction, and `parseIntent` therefore succeeds on the first attempt with
the canned greet intent (confidence 0.8) — the unknown/0.4 fallback and the
claimed `LowConfidence` failure are never produced. -/
theorem mock_unknown_input_actual_result :
    (parseIntent {} MockProvider.generate (fun n => n) "asdkjasd" none []).result.success = true ∧
    (parseIntent {} MockProvider.generate (fun n => n) "asdkjasd" none []).result.intent =
      some { action := some "greet", confidence := some (mkRat 4 5) } ∧
    (parseIntent {} MockProvider.generate (fun n => n) "asdkjasd" none []).result.retries = some 0 ∧
    (parseIntent {} MockProvider.generate (fun n => n) "asdkjasd" none []).calls = 1 ∧
    (parseIntent {} MockProvider.generate (fun n => n) "asdkjasd" none []).result.correctionSuggestion = none := by
  decide

theorem addToHistory_length_le (L : Nat) (hL : 1 ≤ L) (h : List PromptHistoryItem)
    (inp : String) (it : JsIntent) (n : Nat) :
    (addToHistory L h inp it n).length ≤ L := by
  simp only [addToHistory]
  split
  next hcond =>
    simp
    omega
  next hcond =>
    simp only [ne_eq, not_and, not_lt] at hcond
    have := hcond (by omega)
    simpa using this

theorem addToHistory_suffix (L : Nat) (h : List PromptHistoryItem)
    (inp : String) (it : JsIntent) (n : Nat) :
    addToHistory L h inp it n <:+ h ++ [{ input := inp, intent := it, timestamp := n }] := by
  simp only [addToHistory]
  split
  · exact List.drop_suffix _ _
  · exact List.suffix_refl _

/-- Counterexample to claim C5: with `historyLimit = 0` — a configured limit
the truthiness guard `if (this.options.historyLimit && …)` treats as absent —
one successful resolution leaves the history at length 1, exceeding the
configured limit 0. -/
theorem history_limit_zero_cex :
    ({ historyLimit := 0 } : NLUOptions).historyLimit = 0 ∧
    (parseIntent { historyLimit := 0 } MockProvider.generate (fun n => n)
      "hello" none []).result.success = true ∧
    (parseIntent { historyLimit := 0 } MockProvider.generate (fun n => n)
      "hello" none []).history.length = 1 := by
  decide

/-- Claim C5 as amended: for every positive configured history limit, the
history length never exceeds the limit after any number of successful
resolutions (each appending one item from a state within the limit), and each
append evicts only the oldest entries: the new history is a suffix of the old
history with the new item appended, so remaining entries keep their relative
order. -/
theorem history_bounded_fifo (L : Nat) (hL : 1 ≤ L) :
    (∀ h0 : List PromptHistoryItem, h0.length ≤ L →
      ∀ adds : List (String × JsIntent × Nat),
        (adds.foldl (fun h a => addToHistory L h a.1 a.2.1 a.2.2) h0).length ≤ L) ∧
    (∀ (h : List PromptHistoryItem) (inp : String) (it : JsIntent) (n : Nat),
      addToHistory L h inp it n <:+
        h ++ [{ input := inp, intent := it, timestamp := n }]) := by
  constructor
  · intro h0 h0le adds
    induction adds generalizing h0 with
    | nil => exact h0le
    | cons a rest ih => exact ih _ (addToHistory_length_le L hL h0 a.1 a.2.1 a.2.2)
  · intro h inp it n
    exact addToHistory_suffix L h inp it n

/-- Every failure branch of the loop leaves the `intent` field empty, and the
success branch stores exactly the clamped intent, so any confidence carried by
the returned result lies in [0,1]. -/
theorem parseLoop_result_conf_clamped (opts : NLUOptions) (provider : Provider)
    (clock : Nat → Nat) (input : String) (context : Option PromptContext)
    (startTime : Nat) :
    ∀ (fuel attempts0 : Nat) (last : Option ParseResult)
      (history : List PromptHistoryItem) (calls tick : Nat),
      (∀ r, last = some r → r.intent = none) →
      ∀ i, (parseLoop opts provider clock input context startTime
          fuel attempts0 last history calls tick).result.intent = some i →
        ∀ c, i.confidence = some c → 0 ≤ c ∧ c ≤ 1 := by
  intro fuel
  induction fuel with
  | zero =>
    intro attempts0 last history calls tick hlast i hi c hc
    exfalso
    cases last with
    | none => simp [parseLoop] at hi
    | some r => simp [parseLoop, hlast r rfl] at hi
  | succ n ih =>
    intro attempts0 last history calls tick hlast
    simp only [parseLoop]
    repeat' split
    all_goals
      first
        | exact ih _ _ _ _ _ hlast
        | exact ih _ _ _ _ _ (by rintro r hr; simp [← Option.some.inj hr])
        | (intro i hi c hc
           have hEq := Option.some.inj hi
           subst hEq
           simp only [clampIntent] at hc
           rcases Option.map_eq_some'.mp hc with ⟨c0, hc0, rfl⟩
           exact ⟨clampRat_nonneg c0, clampRat_le_one c0⟩)
        | simp

/-- Every history entry the loop adds carries a clamped intent; entries never
get reordered or modified, only appended (and evicted). -/
theorem parseLoop_history_conf_clamped (opts : NLUOptions) (provider : Provider)
    (clock : Nat → Nat) (input : String) (context : Option PromptContext)
    (startTime : Nat) :
    ∀ (fuel attempts0 : Nat) (last : Option ParseResult)
      (history : List PromptHistoryItem) (calls tick : Nat),
      ∀ item ∈ (parseLoop opts provider clock input context startTime
          fuel attempts0 last history calls tick).history,
        item ∈ history ∨ ∀ c, item.intent.confidence = some c → 0 ≤ c ∧ c ≤ 1 := by
  intro fuel
  induction fuel with
  | zero =>
    intro attempts0 last history calls tick item hm
    exact Or.inl (by simpa [parseLoop] using hm)
  | succ n ih =>
    intro attempts0 last history calls tick
    simp only [parseLoop]
    repeat' split
    all_goals
      first
        | exact ih _ _ _ _ _
        | exact fun item hm => Or.inl hm
        | (intro item hm
           have hsub := (addToHistory_suffix _ _ _ _ _).subset hm
           rcases List.mem_append.mp hsub with h1 | h1
           · exact Or.inl h1
           · right
             have hitem := List.mem_singleton.mp h1
             subst hitem
             intro c hc
             simp only [clampIntent] at hc
             rcases Option.map_eq_some'.mp hc with ⟨c0, hc0, rfl⟩
             exact ⟨clampRat_nonneg c0, clampRat_le_one c0⟩)

/-- Claim C6: every confidence carried by the returned `ParseResult` or by a
newly stored history entry lies in [0,1] (raw values are clamped), and the
clamping happens before the minimum-confidence comparison: when the first
response decodes to an intent whose clamped confidence is below the threshold
(and low-confidence retrying is off) the call fails, while a clamped
confidence at or above the threshold succeeds — even when the raw value lies
outside [0,1]. -/
theorem confidence_clamped_in_results (opts : NLUOptions) (provider : Provider)
    (clock : Nat → Nat) (input : String) (context : Option PromptContext)
    (history0 : List PromptHistoryItem) :
    (∀ i, (parseIntent opts provider clock input context history0).result.intent = some i →
      ∀ c, i.confidence = some c → 0 ≤ c ∧ c ≤ 1) ∧
    (∀ item ∈ (parseIntent opts provider clock input context history0).history,
      item ∈ history0 ∨ ∀ c, item.intent.confidence = some c → 0 ≤ c ∧ c ≤ 1) ∧
    (∀ (i : JsIntent) (c : Rat),
      hasSensitiveContent (normalizeInput input) = false →
      provider (firstPromptLines opts input context history0) = { content := .parsed i } →
      actionTruthy i.action = true →
      i.confidence = some c →
      ((clampRat c < opts.minConfidence → opts.retryOnFailure = false →
          (parseIntent opts provider clock input context history0).result.success = false ∧
          (parseIntent opts provider clock input context history0).result.correctionSuggestion =
            some "Can you rephrase or clarify your command?") ∧
       (opts.minConfidence ≤ clampRat c →
          (parseIntent opts provider clock input context history0).result.success = true ∧
          (parseIntent opts provider clock input context history0).result.intent =
            some (clampIntent i)))) := by
  refine ⟨?_, ?_, ?_⟩
  · exact fun i hi =>
      parseLoop_result_conf_clamped opts provider clock input context (clock 0)
        (opts.maxRetries + 1) 0 none history0 0 1 (by rintro r ⟨⟩) i hi
  · exact fun item hm =>
      parseLoop_history_conf_clamped opts provider clock input context (clock 0)
        (opts.maxRetries + 1) 0 none history0 0 1 item hm
  · intro i c hsens hresp hact hconf
    simp only [firstPromptLines] at hresp
    constructor
    · intro hlow hnoretry
      simp [parseIntent, parseLoop, hsens, hresp, errTruthy, hact, clampIntent,
        hconf, hlow, hnoretry]
    · intro hge
      have hnl := not_lt.mpr hge
      simp [parseIntent, parseLoop, hsens, hresp, errTruthy, hact, clampIntent,
        hconf, hnl]

/-- Witness for C6: applying the theorem at the provider returning confidence
0.7 recovers the bounds on the stored confidence, and at the provider whose
raw confidence is 1.5 (clamped to 1 ≥ 0.6) it certifies a success whose stored
confidence is the clamp. -/
theorem confidence_clamped_in_results_witness :
    ((0:Rat) ≤ mkRat 7 10 ∧ mkRat 7 10 ≤ 1) ∧
    (parseIntent {} hotProviderW (fun n => n) "make it brighter" none []).result.success = true ∧
    (parseIntent {} hotProviderW (fun n => n) "make it brighter" none []).result.intent =
      some (clampIntent { action := some "navigate", confidence := some (mkRat 3 2) }) := by
  constructor
  · exact (confidence_clamped_in_results {} okProviderW (fun n => n)
      "make it warmer" none []).1
      { action := some "navigate", confidence := some (mkRat 7 10) }
      (by decide) (mkRat 7 10) rfl
  · exact ((confidence_clamped_in_results {} hotProviderW (fun n => n)
      "make it brighter" none []).2.2
      { action := some "navigate", confidence := some (mkRat 3 2) }
      (mkRat 3 2) (by decide) rfl (by decide) rfl).2 (by decide)

/-- Witness for the amended C5 at limit 2 and three appended items. -/
theorem history_bounded_fifo_witness :
    (([("a", greetIntentW, 0), ("b", greetIntentW, 1), ("c", greetIntentW, 2)]
        : List (String × JsIntent × Nat)).foldl
      (fun h a => addToHistory 2 h a.1 a.2.1 a.2.2) []).length ≤ 2 ∧
    addToHistory 2 [] "a" greetIntentW 0 <:+
      [] ++ [{ input := "a", intent := greetIntentW, timestamp := 0 }] := by
  have h := history_bounded_fifo 2 (by decide)
  exact ⟨h.1 [] (by decide) _, h.2 [] "a" greetIntentW 0⟩


/-- Running a middleware chain whose prefix `pre` all passes (transforming the
intent to `i2`) and whose next element rejects stops after `pre.length + 1`
invocations with the rejection sentinel. -/
theorem runMiddleware_append_reject (pre post : List Middleware) (f : Middleware)
    (intent i2 : Intent) (hpre : runMiddleware pre intent = (some i2, pre.length))
    (hf : f i2 = none) :
    runMiddleware (pre ++ f :: post) intent = (none, pre.length + 1) := by
  induction pre generalizing intent with
  | nil =>
    simp only [runMiddleware, Prod.mk.injEq, Option.some.injEq] at hpre
    obtain ⟨rfl, -⟩ := hpre
    simp [runMiddleware, hf]
  | cons g gs ih =>
    simp only [runMiddleware] at hpre
    cases hg : g intent with
    | none =>
      rw [hg] at hpre
      simp at hpre
    | some i3 =>
      rw [hg] at hpre
      simp only [Prod.mk.injEq] at hpre
      have hA : runMiddleware gs i3 = (some i2, gs.length) := by
        have h2 : (runMiddleware gs i3).2 = gs.length := by
          have := hpre.2
          simpa using this
        exact Prod.ext hpre.1 h2
      have hrec := ih i3 hA
      simp only [List.cons_append, runMiddleware, hg]
      simp [List.append_eq, hrec]

/-- Counterexample to claim C7's response literal: the source's rejection
message is `"Intent rejected by middleware"`, not `"rejected by middleware"`
(the short-circuit behaviour itself holds). -/
theorem middleware_rejection_message_cex :
    (routeIntent emptyRegistryW navIntentW none
      { middleware := some [rejectMiddlewareW] }).response.success = false ∧
    (routeIntent emptyRegistryW navIntentW none
      { middleware := some [rejectMiddlewareW] }).response.message =
      some "Intent rejected by middleware" ∧
    (routeIntent emptyRegistryW navIntentW none
      { middleware := some [rejectMiddlewareW] }).response.message ≠
      some "rejected by middleware" ∧
    (routeIntent emptyRegistryW navIntentW none
      { middleware := some [rejectMiddlewareW] }).handlerCalled = false := by
  decide

/-- Claim C7 as amended: if the middleware at position `i` rejects (after the
first `i` middleware functions transformed the intent), `routeIntent` runs no
middleware after position `i` (exactly `i + 1` middleware invocations), runs
no handler, and returns the rejection response
`{success: false, message: "Intent rejected by middleware"}`. -/
theorem middleware_rejection_short_circuits (registry : Registry)
    (options : RouterOptions) (context : Option ExecutorContext)
    (intent i2 : Intent) (pre post : List Middleware) (f : Middleware)
    (hmw : options.middleware = some (pre ++ f :: post))
    (hpre : runMiddleware pre intent = (some i2, pre.length))
    (hf : f i2 = none) :
    routeIntent registry intent context options =
      { response := { success := false, message := some "Intent rejected by middleware" },
        middlewareCalls := pre.length + 1,
        handlerCalled := false } := by
  have hrun := runMiddleware_append_reject pre post f intent i2 hpre hf
  simp [routeIntent, mergeRouterOptions, hmw, hrun]

/-- Witness for the amended C7: three middleware functions, the second
rejects; exactly two run, no handler runs. -/
theorem middleware_rejection_short_circuits_witness :
    routeIntent emptyRegistryW navIntentW none
      { middleware := some [passMiddlewareW, rejectMiddlewareW, passMiddlewareW] } =
      { response := { success := false, message := some "Intent rejected by middleware" },
        middlewareCalls := 2, handlerCalled := false } := by
  have h := middleware_rejection_short_circuits emptyRegistryW
    { middleware := some [passMiddlewareW, rejectMiddlewareW, passMiddlewareW] } none
    navIntentW navIntentW [passMiddlewareW] [passMiddlewareW] rejectMiddlewareW
    rfl (by simp [runMiddleware, passMiddlewareW]) rfl
  simpa using h

/-- Counterexample to claim C8's response literal: the source's message is
`"Unknown action: navigate"` (capital U), not `"unknown action: navigate"`
(the behaviour itself holds). -/
theorem unknown_action_message_cex :
    (routeIntent emptyRegistryW navIntentW none {}).response =
      { success := false, message := some "Unknown action: navigate" } ∧
    (routeIntent emptyRegistryW navIntentW none {}).response.message ≠
      some "unknown action: navigate" := by
  decide

/-- Claim C8 as amended: with no (or an empty) middleware chain, an intent
whose action has no registered handler and no usable fallback (none
configured, or the configured fallback has no handler) yields
`{success: false, message: "Unknown action: <action>"}` with the intent's
action interpolated, and no handler runs. -/
theorem unknown_action_response (registry : Registry) (options : RouterOptions)
    (intent : Intent) (context : Option ExecutorContext)
    (hmw : options.middleware = none ∨ options.middleware = some [])
    (hnoexec : registry intent.action = none)
    (hfb : ∀ fb, options.fallbackAction = some fb → registry fb = none) :
    routeIntent registry intent context options =
      { response := { success := false,
                      message := some ("Unknown action: " ++ intent.action) },
        middlewareCalls := 0, handlerCalled := false } := by
  rcases hmw with hmw | hmw <;>
  · cases hfba : options.fallbackAction with
    | none => simp [routeIntent, mergeRouterOptions, hmw, hnoexec, hfba]
    | some fb => simp [routeIntent, mergeRouterOptions, hmw, hnoexec, hfba, hfb fb hfba]

/-- Witness for the amended C8: routing `{action:"navigate",
target:"settings"}` against an empty registry without fallback. -/
theorem unknown_action_response_witness :
    routeIntent emptyRegistryW navIntentW none {} =
      { response := { success := false,
                      message := some ("Unknown action: " ++ navIntentW.action) },
        middlewareCalls := 0, handlerCalled := false } :=
  unknown_action_response emptyRegistryW {} navIntentW none (Or.inl rfl) rfl
    (fun fb h => by cases h)


/-- Membership in the concatenation-of-line-lists: every line of the second
chunk except possibly its first (which merges with the first chunk's last
line) survives into the concatenation. -/
theorem mem_catLines_tail (xs ys : List String) (a : String) (h : a ∈ ys.tail) :
    a ∈ catLines xs ys := by
  induction xs with
  | nil => simpa [catLines] using List.mem_of_mem_tail h
  | cons x xs ih =>
    cases xs with
    | nil =>
      cases ys with
      | nil => simp at h
      | cons y ys =>
        simp only [catLines]
        exact List.mem_cons_of_mem _ (by simpa using h)
    | cons x2 rest =>
      simp only [catLines]
      exact List.mem_cons_of_mem _ ih

/-- The closing instruction is a line of every prompt the builder produces. -/
theorem closing_mem_prompt (input : String) (context : Option PromptContext)
    (history : Option (List PromptHistoryItem)) (options : PromptTemplateOptions) :
    "Return ONLY the JSON intent object and nothing else. Do not include explanations or additional text." ∈
      createDefaultIntentPrompt input context history options := by
  simp only [createDefaultIntentPrompt]
  exact mem_catLines_tail _ _ _ (by simp [closingPromptLines])

/-- With `includeHistory = false` the prompt does not depend on the history
argument. -/
theorem prompt_ignores_history (input : String) (context : Option PromptContext)
    (options : PromptTemplateOptions) (hIH : options.includeHistory = false)
    (h h2 : List PromptHistoryItem) :
    createDefaultIntentPrompt input context (some h) options =
      createDefaultIntentPrompt input context (some h2) options := by
  simp [createDefaultIntentPrompt, hIH]

/-- The greet pattern (`/hello|hi|hey/i`) matches every prompt containing the
closing instruction line: `hi` occurs inside the word `nothing`. -/
theorem pattern9_matches (lines : List String)
    (hmem : "Return ONLY the JSON intent object and nothing else. Do not include explanations or additional text." ∈ lines) :
    MockProvider.patternMatches [["hello"], ["hi"], ["hey"]] lines = true := by
  unfold MockProvider.patternMatches
  rw [List.any_eq_true]
  exact ⟨_, hmem, by decide⟩

/-- Whenever the greet pattern matches, the mock answers with some pattern's
canned response (the fallback is unreachable for prompts built by the default
template). -/
theorem mock_generate_mem (lines : List String)
    (h9 : MockProvider.patternMatches [["hello"], ["hi"], ["hey"]] lines = true) :
    ∃ p ∈ MockProvider.patterns,
      MockProvider.generate lines = { content := .parsed p.2, error := none } := by
  unfold MockProvider.generate
  have hsome : (MockProvider.patterns.find?
      (fun p => MockProvider.patternMatches p.1 lines)).isSome := by
    rw [List.find?_isSome]
    exact ⟨([["hello"], ["hi"], ["hey"]],
      { action := some "greet", confidence := some (mkRat 8 10) }), by decide, h9⟩
  obtain ⟨q, hq⟩ := Option.isSome_iff_exists.mp hsome
  refine ⟨q, List.mem_of_find?_eq_some hq, ?_⟩
  rw [hq]

/-- Every canned mock response decodes to an intent with a truthy action and a
present confidence within [0.6, 1] ∩ [0, 1]. -/
theorem mock_patterns_good : ∀ p ∈ MockProvider.patterns,
    actionTruthy p.2.action = true ∧ p.2.confidence.isSome = true ∧
    ∀ c, p.2.confidence = some c → mkRat 6 10 ≤ c ∧ 0 ≤ c ∧ c ≤ 1 := by
  intro p hp
  fin_cases hp <;>
    exact ⟨rfl, rfl, fun c hc => by cases hc; decide⟩

theorem clampRat_eq_self (c : Rat) (h0 : 0 ≤ c) (h1 : c ≤ 1) : clampRat c = c := by
  unfold clampRat
  rw [min_eq_right h1, max_eq_right h0]

/-- A first attempt whose response decodes to a truthy-action intent with
clamped confidence at or above the threshold returns success immediately. -/
theorem parseLoop_first_success (opts : NLUOptions) (provider : Provider)
    (clock : Nat → Nat) (input : String) (context : Option PromptContext)
    (startTime : Nat) (fuel attempts0 : Nat) (last : Option ParseResult)
    (history : List PromptHistoryItem) (calls tick : Nat)
    (i : JsIntent) (c : Rat)
    (hsens : hasSensitiveContent (normalizeInput input) = false)
    (hresp : provider (createDefaultIntentPrompt (normalizeInput input)
        (some (mergeContext opts.defaultContext context))
        (if opts.keepHistory then some history else none) opts.promptOptions) =
      { content := .parsed i, error := none })
    (hact : actionTruthy i.action = true)
    (hconf : i.confidence = some c)
    (hge : opts.minConfidence ≤ clampRat c) :
    (parseLoop opts provider clock input context startTime
        (fuel + 1) attempts0 last history calls tick).result.success = true ∧
    (parseLoop opts provider clock input context startTime
        (fuel + 1) attempts0 last history calls tick).result.intent =
      some (clampIntent i) ∧
    (parseLoop opts provider clock input context startTime
        (fuel + 1) attempts0 last history calls tick).result.retries = some attempts0 ∧
    (parseLoop opts provider clock input context startTime
        (fuel + 1) attempts0 last history calls tick).calls = calls + 1 := by
  have hnl := not_lt.mpr hge
  simp [parseLoop, hsens, hresp, errTruthy, hact, clampIntent, hconf, hnl]

/-- Under default options the mock-backed `parseIntent` succeeds on the first
attempt for every non-sensitive input, decoding `mockTemplateIntent input`
independently of the starting history. -/
theorem parseIntent_mock_default (input : String) (h0 : List PromptHistoryItem)
    (clk : Nat → Nat)
    (hsens : hasSensitiveContent (normalizeInput input) = false) :
    (parseIntent {} MockProvider.generate clk input none h0).result.success = true ∧
    (parseIntent {} MockProvider.generate clk input none h0).result.intent =
      some (clampIntent (mockTemplateIntent input)) ∧
    (parseIntent {} MockProvider.generate clk input none h0).result.retries = some 0 ∧
    (parseIntent {} MockProvider.generate clk input none h0).calls = 1 := by
  have hclosing :
      "Return ONLY the JSON intent object and nothing else. Do not include explanations or additional text." ∈
        firstPromptLines {} input none h0 := by
    simp only [firstPromptLines]
    exact closing_mem_prompt _ _ _ _
  obtain ⟨q, hq, hgen⟩ := mock_generate_mem _ (pattern9_matches _ hclosing)
  have hprompt_eq : firstPromptLines {} input none h0 = firstPromptLines {} input none [] := by
    simp only [firstPromptLines]
    exact prompt_ignores_history _ _ _ rfl _ _
  have htempl : mockTemplateIntent input = q.2 := by
    unfold mockTemplateIntent
    rw [← hprompt_eq, hgen]
  obtain ⟨hact, hconfSome, hbounds⟩ := mock_patterns_good q hq
  cases hcq : q.2.confidence with
  | none => rw [hcq] at hconfSome; cases hconfSome
  | some c =>
    obtain ⟨hc6, hc0, hc1⟩ := hbounds c hcq
    have hge : ({} : NLUOptions).minConfidence ≤ clampRat c := by
      rw [clampRat_eq_self c hc0 hc1]
      exact hc6
    have hgen2 := hgen
    rw [firstPromptLines] at hgen2
    have hstep := parseLoop_first_success {} MockProvider.generate clk input none
      (clk 0) ({} : NLUOptions).maxRetries 0 none h0 0 1 q.2 c hsens hgen2 hact hcq hge
    rw [htempl]
    simpa [parseIntent] using hstep

/-- Counterexample to claim C9: for the sensitive input `"password"` (under
the deterministic stub, default options and empty starting history) both calls
fail — they do not yield two successful results. -/
theorem mock_idempotence_sensitive_cex :
    (parseIntent {} MockProvider.generate (fun n => n) "password" none []).result.success = false ∧
    (parseIntent {} MockProvider.generate (fun n => n) "password" none
      (parseIntent {} MockProvider.generate (fun n => n) "password" none []).history).result.success = false := by
  decide

/-- Claim C9 as amended: for every input that is not flagged as sensitive,
calling mock-backed `parseIntent` twice with the same input (default options,
empty starting history, the second call starting from the history the first
call produced, possibly under a different clock) yields two successful results
whose intents are structurally identical, and an intent is actually present. -/
theorem mock_parse_deterministic_idempotent (input : String) (clk clk2 : Nat → Nat)
    (hsens : hasSensitiveContent (normalizeInput input) = false) :
    (parseIntent {} MockProvider.generate clk input none []).result.success = true ∧
    (parseIntent {} MockProvider.generate clk2 input none
      (parseIntent {} MockProvider.generate clk input none []).history).result.success = true ∧
    (parseIntent {} MockProvider.generate clk input none []).result.intent =
      (parseIntent {} MockProvider.generate clk2 input none
        (parseIntent {} MockProvider.generate clk input none []).history).result.intent ∧
    (parseIntent {} MockProvider.generate clk input none []).result.intent.isSome = true := by
  obtain ⟨s1, i1, r1, c1⟩ := parseIntent_mock_default input [] clk hsens
  obtain ⟨s2, i2, r2, c2⟩ := parseIntent_mock_default input
    (parseIntent {} MockProvider.generate clk input none []).history clk2 hsens
  refine ⟨s1, s2, by rw [i1, i2], by rw [i1]; rfl⟩

/-- Witness for the amended C9 at the input `"what time is it"` and two
different clocks. -/
theorem mock_parse_deterministic_idempotent_witness :
    (parseIntent {} MockProvider.generate (fun n => n) "what time is it" none []).result.success = true ∧
    (parseIntent {} MockProvider.generate (fun n => n + 5) "what time is it" none
      (parseIntent {} MockProvider.generate (fun n => n) "what time is it" none []).history).result.success = true ∧
    (parseIntent {} MockProvider.generate (fun n => n) "what time is it" none []).result.intent =
      (parseIntent {} MockProvider.generate (fun n => n + 5) "what time is it" none
        (parseIntent {} MockProvider.generate (fun n => n) "what time is it" none []).history).result.intent ∧
    (parseIntent {} MockProvider.generate (fun n => n) "what time is it" none []).result.intent.isSome = true :=
  mock_parse_deterministic_idempotent "what time is it" (fun n => n) (fun n => n + 5) (by decide)

/-- Claim C10: `getHistory` returns a fresh array: its reference differs from
the internal one, any mutation of the returned array leaves the internal
history unchanged (as observed by reading the internal reference, which is
what subsequent `getHistory` calls and prompt construction do), and the
returned array holds the same item references (items shared, not copied). -/
theorem getHistory_returns_fresh_copy (st : NLUInstance)
    (hv : st.historyRef < st.heap.arrays.length) :
    (getHistory st).1 ≠ st.historyRef ∧
    (∀ newContents, readArray (writeArray (getHistory st).2.heap (getHistory st).1 newContents)
        st.historyRef = readArray st.heap st.historyRef) ∧
    readArray (getHistory st).2.heap (getHistory st).1 = readArray st.heap st.historyRef := by
  refine ⟨?_, ?_, ?_⟩
  · simp only [getHistory, allocArray]
    omega
  · intro newContents
    simp only [getHistory, allocArray, writeArray, readArray, List.getD,
      List.get?_eq_getElem?]
    rw [List.getElem?_set_ne (show st.heap.arrays.length ≠ st.historyRef by omega)]
    rw [List.getElem?_append_left hv]
  · simp only [getHistory, allocArray, readArray, List.getD, List.get?_eq_getElem?]
    rw [List.getElem?_concat_length]
    rfl

/-- Witness for C10 at a one-element heap, mutating the copy to the empty
array. -/
theorem getHistory_returns_fresh_copy_witness :
    (getHistory getHistoryInstW).1 ≠ getHistoryInstW.historyRef ∧
    readArray (writeArray (getHistory getHistoryInstW).2.heap (getHistory getHistoryInstW).1 [])
      getHistoryInstW.historyRef = readArray getHistoryInstW.heap getHistoryInstW.historyRef ∧
    readArray (getHistory getHistoryInstW).2.heap (getHistory getHistoryInstW).1 =
      readArray getHistoryInstW.heap getHistoryInstW.historyRef := by
  have h := getHistory_returns_fresh_copy getHistoryInstW (by decide)
  exact ⟨h.1, h.2.1 [], h.2.2⟩

end IntentJS
